import Mathlib

/-!
Shallow embedding of `server/server.go` of mark3labs/phalcon-mcp.

Network effects are modelled by oracles: a bootstrap oracle gives the outcome
of each GET attempt against the warm-up URL, and an upstream oracle gives the
outcome of each POST attempt to `/api/v1/onchain/tx/<endpoint>` as a function
of the endpoint, the attempt index and the request body sent.  Go errors are
modelled as `Except String` with the exact message strings the code builds
via `fmt.Errorf`.  Goroutine scheduling in the aggregate handler is modelled
by an explicit completion order (a permutation of the endpoint list): the
mutex in the Go code serialises the map writes into some such order.
-/

namespace PhalconMCP

/-- A JSON-ish value in the tool-call argument bag (`map[string]interface{}`):
a Go type assertion `.(string)` succeeds exactly on `str`. -/
inductive ArgValue where
  | str (s : String)
  | other
deriving DecidableEq

/-- Go map lookup: `request.Params.Arguments[key]`; a missing key yields the
nil interface, on which the `.(string)` assertion fails. -/
def lookupArg : List (String × ArgValue) → String → Option ArgValue
  | [], _ => none
  | (k, v) :: rest, key => if k == key then some v else lookupArg rest key

/-- The `.(string)` type assertion on an optional argument value. -/
def asStringArg : Option ArgValue → Option String
  | some (.str s) => some s
  | _ => none

/-- Accumulate decimal digits; `none` on an empty digit list or a non-digit. -/
def digitsToNat : List Char → Option Nat
  | [] => none
  | cs => go cs 0
where
  go : List Char → Nat → Option Nat
    | [], acc => some acc
    | c :: rest, acc =>
      if '0' ≤ c ∧ c ≤ '9' then go rest (acc * 10 + (c.toNat - '0'.toNat))
      else none

/-- Go `strconv.Atoi`: optional sign, at least one digit, 64-bit int range;
the error strings follow the `strconv` `NumError` formatting printed by
`%v`. -/
def goAtoi (s : String) : Except String Int :=
  match s.data with
  | [] => .error ("strconv.Atoi: parsing \"" ++ s ++ "\": invalid syntax")
  | c :: rest =>
    let (neg, digits) :=
      if c == '-' then (true, rest)
      else if c == '+' then (false, rest)
      else (false, c :: rest)
    match digitsToNat digits with
    | none => .error ("strconv.Atoi: parsing \"" ++ s ++ "\": invalid syntax")
    | some n =>
      let v : Int := if neg then -(n : Int) else (n : Int)
      if v < -(2 ^ 63) ∨ 2 ^ 63 - 1 < v then
        .error ("strconv.Atoi: parsing \"" ++ s ++ "\": value out of range")
      else .ok v

/-- `extractRequestParams` (server.go): extract `chainId` (string, parsed
with `strconv.Atoi`) and `transactionHash` (string) from the argument bag.
Note: the Go code performs no emptiness check on `transactionHash`. -/
def extractRequestParams (args : List (String × ArgValue)) :
    Except String (Int × String) :=
  match asStringArg (lookupArg args "chainId") with
  | none => .error "chainId must be a string"
  | some chainIdStr =>
    match goAtoi chainIdStr with
    | .error e => .error ("invalid chainId format: " ++ e)
    | .ok chainId =>
      match asStringArg (lookupArg args "transactionHash") with
      | none => .error "transactionHash must be a string"
      | some txHash => .ok (chainId, txHash)

/-- A JSON value as produced for the fields of the structs this server
marshals (`encoding/json` with struct tags). -/
inductive JsonVal where
  | jnum (n : Int)
  | jstr (s : String)
  | jbool (b : Bool)
deriving DecidableEq

/-- Lowercase hex digit, for `\u00XX` escapes. -/
def hexDigit (n : Nat) : Char :=
  if n < 10 then Char.ofNat ('0'.toNat + n) else Char.ofNat ('a'.toNat + (n - 10))

/-- Go `encoding/json` string escaping: quote, backslash, `\n`, `\r`, `\t`,
other control bytes as `\u00XX`, and HTML-safe escaping of `<`, `>`, `&`. -/
def jsonEscapeChar (c : Char) : String :=
  if c == '"' then "\\\""
  else if c == '\\' then "\\\\"
  else if c == '\n' then "\\n"
  else if c == '\r' then "\\r"
  else if c == '\t' then "\\t"
  else if c.toNat < 0x20 ∨ c == '<' ∨ c == '>' ∨ c == '&' then
    String.mk ['\\', 'u', '0', '0', hexDigit (c.toNat / 16), hexDigit (c.toNat % 16)]
  else String.mk [c]

def jsonEscape (s : String) : String :=
  String.join (s.data.map jsonEscapeChar)

def renderJsonString (s : String) : String :=
  "\"" ++ jsonEscape s ++ "\""

def renderJsonVal : JsonVal → String
  | .jnum n => toString n
  | .jstr s => renderJsonString s
  | .jbool b => if b then "true" else "false"

/-- Render an object with the fields in the given order (Go serialises struct
fields in declaration order). -/
def renderJsonObject (fields : List (String × JsonVal)) : String :=
  "\x7b" ++
    String.intercalate ","
      (fields.map (fun f => renderJsonString f.1 ++ ":" ++ renderJsonVal f.2)) ++
    "\x7d"

/-- `BlocksecTraceRequest` (server.go): the POST body struct, with json tags
`chainID`, `txnHash`, `blocked`. -/
structure BlocksecTraceRequest where
  chainID : Int
  txnHash : String
  blocked : Bool
deriving DecidableEq

/-- The field list `encoding/json` produces for `BlocksecTraceRequest`:
declaration order, tag names. -/
def blocksecTraceRequestFields (r : BlocksecTraceRequest) : List (String × JsonVal) :=
  [("chainID", .jnum r.chainID), ("txnHash", .jstr r.txnHash), ("blocked", .jbool r.blocked)]

/-- `json.Marshal(reqBody)` for the request struct. -/
def marshalBlocksecTraceRequest (r : BlocksecTraceRequest) : String :=
  renderJsonObject (blocksecTraceRequestFields r)

/-- The `reqBody` literal built inside `callBlocksecAPI`:
`BlocksecTraceRequest{ChainID: chainId, TxnHash: txHash, Blocked: false}`. -/
def apiRequestBody (chainId : Int) (txHash : String) : BlocksecTraceRequest :=
  ⟨chainId, txHash, false⟩

/-- The JSON bytes `callBlocksecAPI` sends on every attempt. -/
def sentBody (chainId : Int) (txHash : String) : String :=
  marshalBlocksecTraceRequest (apiRequestBody chainId txHash)

/-- Outcome of one POST attempt as seen by `callBlocksecAPI`: transport error
from `client.Do`, error from `io.ReadAll` on the body, or a response with a
status code and fully-read body. -/
inductive AttemptOutcome where
  | transportErr (m : String)
  | readErr (m : String)
  | response (status : Nat) (body : String)
deriving DecidableEq

/-- The `lastErr` string `callBlocksecAPI` records for a failed attempt. -/
def attemptErrMsg : AttemptOutcome → String
  | .transportErr m => "failed to send request to BlockSec API: " ++ m
  | .readErr m => "failed to read response: " ++ m
  | .response status body =>
      "BlockSec API returned non-200 status code: " ++ toString status ++ " - " ++ body

/-- An attempt outcome on which `callBlocksecAPI` retries: transport error,
body-read error, or a non-200 status. -/
def isRetryableFailure : AttemptOutcome → Bool
  | .response status _ => status != 200
  | _ => true

/-- The upstream oracle: outcome of the POST to
`https://app.blocksec.com/api/v1/onchain/tx/<endpoint>` for a given endpoint,
attempt index, and request body. -/
def Upstream : Type := String → Nat → String → AttemptOutcome

/-- The retry loop of `callBlocksecAPI` (server.go):
`for attempt := 0; attempt <= maxRetries; attempt++` with `maxRetries = 3`,
marshalling the same `reqBody` each attempt, returning the body on status
200 and otherwise recording `lastErr` and retrying.  The `Nat` component
counts the attempts actually made.  The final error reuses the source's
format string `"failed after %d attempts: %v"` with `maxRetries`. -/
def runBlocksecAttempts (up : Upstream) (endpoint : String) (chainId : Int)
    (txHash : String) : Nat → Nat → String → Except String String × Nat
  | _, 0, lastErr => (.error ("failed after 3 attempts: " ++ lastErr), 0)
  | attempt, r + 1, _ =>
    match up endpoint attempt (sentBody chainId txHash) with
    | .transportErr m =>
      let (res, n) := runBlocksecAttempts up endpoint chainId txHash (attempt + 1) r
        (attemptErrMsg (.transportErr m))
      (res, n + 1)
    | .readErr m =>
      let (res, n) := runBlocksecAttempts up endpoint chainId txHash (attempt + 1) r
        (attemptErrMsg (.readErr m))
      (res, n + 1)
    | .response status body =>
      if status == 200 then (.ok body, 1)
      else
        let (res, n) := runBlocksecAttempts up endpoint chainId txHash (attempt + 1) r
          (attemptErrMsg (.response status body))
        (res, n + 1)

/-- `callBlocksecAPI` with its retry budget of 4 total attempts
(`attempt = 0,1,2,3`), with `lastErr` initially nil (empty). -/
def callBlocksecAPIRun (up : Upstream) (endpoint : String) (chainId : Int)
    (txHash : String) : Except String String × Nat :=
  runBlocksecAttempts up endpoint chainId txHash 0 4 ""

/-- The value `callBlocksecAPI` returns. -/
def callBlocksecAPI (up : Upstream) (endpoint : String) (chainId : Int)
    (txHash : String) : Except String String :=
  (callBlocksecAPIRun up endpoint chainId txHash).1

/-- How many POST attempts `callBlocksecAPI` makes. -/
def callBlocksecAttempts (up : Upstream) (endpoint : String) (chainId : Int)
    (txHash : String) : Nat :=
  (callBlocksecAPIRun up endpoint chainId txHash).2

/-- Outcome of one GET attempt against the warm-up page in
`fetchBlocksecCookies`: transport error from `client.Do`, or a response with
a status code (the body is discarded). -/
inductive BootstrapOutcome where
  | transportErr (m : String)
  | response (status : Nat)
deriving DecidableEq

/-- The `lastErr` string `fetchBlocksecCookies` records for a failed attempt. -/
def bootErrMsg : BootstrapOutcome → String
  | .transportErr m => "failed to send request to main site: " ++ m
  | .response status => "main site returned non-200 status code: " ++ toString status

/-- A bootstrap attempt outcome on which `fetchBlocksecCookies` retries. -/
def isBootFailure : BootstrapOutcome → Bool
  | .response status => status != 200
  | _ => true

/-- The retry loop of `fetchBlocksecCookies` (server.go): same
`for attempt := 0; attempt <= maxRetries; attempt++` shape, succeeding on the
first 200 and otherwise recording `lastErr`. -/
def fetchCookiesLoop (boot : Nat → BootstrapOutcome) :
    Nat → Nat → String → Except String Unit
  | _, 0, lastErr => .error ("failed to fetch cookies after 3 attempts: " ++ lastErr)
  | attempt, r + 1, _ =>
    match boot attempt with
    | .transportErr m =>
      fetchCookiesLoop boot (attempt + 1) r (bootErrMsg (.transportErr m))
    | .response status =>
      if status == 200 then .ok ()
      else fetchCookiesLoop boot (attempt + 1) r (bootErrMsg (.response status))

/-- `fetchBlocksecCookies` with its budget of 4 total attempts. -/
def fetchBlocksecCookies (boot : Nat → BootstrapOutcome) : Except String Unit :=
  fetchCookiesLoop boot 0 4 ""

/-- `formatJSONResponse` (server.go): returns the raw JSON text untouched
(`mcp.NewToolResultText(string(respBody))`); a tool result is modelled by its
text. -/
def formatJSONResponse (respBody : String) : String :=
  respBody

/-- `handleBlocksecRequest` (server.go): validate params, create the client
(`cookiejar.New(nil)` never fails, so `createHTTPClient` is infallible and is
absorbed here), fetch cookies, call the API, return the formatted body. -/
def handleBlocksecRequest (args : List (String × ArgValue))
    (boot : Nat → BootstrapOutcome) (up : Upstream) (endpoint : String) :
    Except String String :=
  match extractRequestParams args with
  | .error e => .error e
  | .ok (chainId, txHash) =>
    match fetchBlocksecCookies boot with
    | .error e => .error e
    | .ok _ =>
      match callBlocksecAPI up endpoint chainId txHash with
      | .error e => .error e
      | .ok respBody => .ok (formatJSONResponse respBody)

/-- `traceHandler` (server.go). -/
def traceHandler (args : List (String × ArgValue)) (boot : Nat → BootstrapOutcome)
    (up : Upstream) : Except String String :=
  handleBlocksecRequest args boot up "trace"

/-- `profileHandler` (server.go). -/
def profileHandler (args : List (String × ArgValue)) (boot : Nat → BootstrapOutcome)
    (up : Upstream) : Except String String :=
  handleBlocksecRequest args boot up "profile"

/-- `addressLabelHandler` (server.go). -/
def addressLabelHandler (args : List (String × ArgValue)) (boot : Nat → BootstrapOutcome)
    (up : Upstream) : Except String String :=
  handleBlocksecRequest args boot up "address-label"

/-- `balanceChangeHandler` (server.go). -/
def balanceChangeHandler (args : List (String × ArgValue)) (boot : Nat → BootstrapOutcome)
    (up : Upstream) : Except String String :=
  handleBlocksecRequest args boot up "balance-change"

/-- `stateChangeHandler` (server.go). -/
def stateChangeHandler (args : List (String × ArgValue)) (boot : Nat → BootstrapOutcome)
    (up : Upstream) : Except String String :=
  handleBlocksecRequest args boot up "state-change"

/-- `Result` (server.go): per-endpoint outcome stored in the overview map.
`data` is `json.RawMessage` (nil when absent), `error` is a Go string whose
zero value is `""`. -/
structure Result where
  name : String
  success : Bool
  data : Option String
  error : String
deriving DecidableEq

/-- The `endpoints` slice literal in `transactionOverviewHandler`:
`(name, endpoint)` pairs, names with underscores, upstream path segments with
hyphens. -/
def endpoints : List (String × String) :=
  [("trace", "trace"), ("profile", "profile"), ("address_label", "address-label"),
    ("balance_change", "balance-change"), ("state_change", "state-change")]

/-- The body of one overview goroutine: call the API for its endpoint and
build the `Result` it stores under `name`. -/
def runWorker (up : Upstream) (chainId : Int) (txHash : String)
    (name endpoint : String) : Result :=
  match callBlocksecAPI up endpoint chainId txHash with
  | .error e => { name := name, success := false, data := none, error := e }
  | .ok respBody => { name := name, success := true, data := some respBody, error := "" }

/-- Go map assignment `m[k] = v`: overwrite an existing key, else append. -/
def insertResult : List (String × Result) → String → Result → List (String × Result)
  | [], k, v => [(k, v)]
  | (k', v') :: rest, k, v =>
    if k' == k then (k, v) :: rest else (k', v') :: insertResult rest k v

/-- Go map read `m[k]`. -/
def lookupResult : List (String × Result) → String → Option Result
  | [], _ => none
  | (k', v') :: rest, k => if k' == k then some v' else lookupResult rest k

/-- The `overviewResult.Results` map after all 5 goroutines have finished:
the mutex serialises the writes into some completion order `order` (a
permutation of `endpoints`), each write storing that worker's `Result`. -/
def buildOverviewResults (up : Upstream) (chainId : Int) (txHash : String)
    (order : List (String × String)) : List (String × Result) :=
  order.foldl (fun m e => insertResult m e.1 (runWorker up chainId txHash e.1 e.2)) []

/-- JSON whitespace accepted by Go's `encoding/json` scanner. -/
def isJsonWs (c : Char) : Bool :=
  c == ' ' || c == '\t' || c == '\n' || c == '\r'

def skipJsonWs (s : List Char) : List Char :=
  s.dropWhile isJsonWs

def isDigitChar (c : Char) : Bool :=
  '0' ≤ c && c ≤ '9'

def isHexChar (c : Char) : Bool :=
  isDigitChar c || ('a' ≤ c && c ≤ 'f') || ('A' ≤ c && c ≤ 'F')

/-- Scan a JSON string body after the opening quote: escapes
`\" \\ \/ \b \f \n \r \t \uXXXX`, no raw control bytes; returns the
remainder after the closing quote. -/
def scanJsonString : List Char → Option (List Char)
  | [] => none
  | '"' :: rest => some rest
  | '\\' :: e :: rest =>
    if e == '"' || e == '\\' || e == '/' || e == 'b' || e == 'f' || e == 'n' ||
        e == 'r' || e == 't' then
      scanJsonString rest
    else if e == 'u' then
      match rest with
      | a :: b :: c :: d :: rest2 =>
        if isHexChar a && isHexChar b && isHexChar c && isHexChar d then
          scanJsonString rest2
        else none
      | _ => none
    else none
  | c :: rest => if c.toNat < 0x20 then none else scanJsonString rest

/-- Integer part of a JSON number: `0`, or a nonzero digit then digits. -/
def scanJsonInt : List Char → Option (List Char)
  | '0' :: rest => some rest
  | c :: rest => if '1' ≤ c && c ≤ '9' then some (rest.dropWhile isDigitChar) else none
  | [] => none

/-- Optional fraction part: `.` then at least one digit. -/
def scanJsonFrac : List Char → Option (List Char)
  | '.' :: rest =>
    match rest with
    | c :: rest2 => if isDigitChar c then some (rest2.dropWhile isDigitChar) else none
    | [] => none
  | s => some s

/-- Optional exponent part: `e`/`E`, optional sign, at least one digit. -/
def scanJsonExp : List Char → Option (List Char)
  | c :: rest =>
    if c == 'e' || c == 'E' then
      match
        (match rest with
          | d :: t => if d == '+' || d == '-' then t else d :: t
          | [] => []) with
      | d :: t => if isDigitChar d then some (t.dropWhile isDigitChar) else none
      | [] => none
    else some (c :: rest)
  | [] => some []

/-- A JSON number, `-? int frac? exp?` (Go scanner grammar). -/
def scanJsonNumber (s : List Char) : Option (List Char) :=
  match scanJsonInt (match s with | '-' :: t => t | t => t) with
  | none => none
  | some s2 =>
    match scanJsonFrac s2 with
    | none => none
    | some s3 => scanJsonExp s3

/-- What the JSON scanner is currently reading: one value, the members of
an object after its `{`, or the elements of an array after its `[`. -/
inductive ScanMode where
  | value
  | members
  | elems
deriving DecidableEq

/-- The recursive part of Go's `encoding/json` scanner: scan one JSON value
(mode `value`, leading whitespace already consumed), the members of an
object (`members`: key string, colon, value, then `,` more members or `}`
end), or the elements of an array (`elems`: value, then `,` more elements
or `]` end), returning the unconsumed remainder.  `fuel` bounds the
recursion; every two fuel units consume at least one input character, so
`2·|input| + 2` is always sufficient. -/
def scanJson : Nat → ScanMode → List Char → Option (List Char)
  | 0, _, _ => none
  | fuel + 1, .value, s =>
    match s with
    | '"' :: rest => scanJsonString rest
    | '\x7b' :: rest =>
      match skipJsonWs rest with
      | '\x7d' :: rest2 => some rest2
      | rest2 => scanJson fuel .members rest2
    | '[' :: rest =>
      match skipJsonWs rest with
      | ']' :: rest2 => some rest2
      | rest2 => scanJson fuel .elems rest2
    | 't' :: 'r' :: 'u' :: 'e' :: rest => some rest
    | 'f' :: 'a' :: 'l' :: 's' :: 'e' :: rest => some rest
    | 'n' :: 'u' :: 'l' :: 'l' :: rest => some rest
    | s => scanJsonNumber s
  | fuel + 1, .members, s =>
    match s with
    | '"' :: rest =>
      match scanJsonString rest with
      | none => none
      | some rest1 =>
        match skipJsonWs rest1 with
        | ':' :: rest2 =>
          match scanJson fuel .value (skipJsonWs rest2) with
          | none => none
          | some rest3 =>
            match skipJsonWs rest3 with
            | ',' :: rest4 => scanJson fuel .members (skipJsonWs rest4)
            | '\x7d' :: rest4 => some rest4
            | _ => none
        | _ => none
    | _ => none
  | fuel + 1, .elems, s =>
    match scanJson fuel .value s with
    | none => none
    | some rest =>
      match skipJsonWs rest with
      | ',' :: rest2 => scanJson fuel .elems (skipJsonWs rest2)
      | ']' :: rest2 => some rest2
      | _ => none

/-- Go's re-validation of a `json.RawMessage` while marshalling
(`encoding/json`'s `compact` runs the scanner over the raw bytes): the
payload must scan as exactly one JSON value, with surrounding whitespace
allowed and nothing after the top-level value. -/
def isValidJson (s : String) : Bool :=
  match scanJson (2 * s.data.length + 2) .value (skipJsonWs s.data) with
  | some rest => (skipJsonWs rest).isEmpty
  | none => false

/-- Marshalling one `Result` succeeds iff its `data` payload, when present
and non-empty (an empty `json.RawMessage` is dropped by `omitempty` before
the marshaller ever sees it), scans as well-formed JSON. -/
def resultDataOk (r : Result) : Bool :=
  match r.data with
  | none => true
  | some d => d == "" || isValidJson d

/-- `json.Marshal` of one `Result`: fields in declaration order, `data` and
`error` carrying `omitempty` (a nil or length-0 `json.RawMessage` and an
empty error string are omitted), the raw message inlined verbatim (the
HTML-escape pass Go applies inside the raw bytes is not modelled; payloads
are opaque and no property reads the rendered composite text). -/
def renderResult (r : Result) : String :=
  "\x7b\"name\":" ++ renderJsonString r.name ++
    ",\"success\":" ++ (if r.success then "true" else "false") ++
    (match r.data with
      | some d => if d == "" then "" else ",\"data\":" ++ d
      | none => "") ++
    (if r.error == "" then "" else ",\"error\":" ++ renderJsonString r.error) ++
    "\x7d"

/-- Lexicographic order on char lists; for valid UTF-8, code-point order
coincides with the byte order Go's string `<` compares. -/
def charListLt : List Char → List Char → Bool
  | [], [] => false
  | [], _ :: _ => true
  | _ :: _, [] => false
  | c :: s, d :: t => Nat.blt c.toNat d.toNat || (c == d && charListLt s t)

/-- Go string `<` (byte-order comparison). -/
def strLt (a b : String) : Bool :=
  charListLt a.data b.data

/-- Insertion into a key-sorted association list (Go's `encoding/json`
serialises map keys in sorted order). -/
def insertByKey (p : String × Result) : List (String × Result) → List (String × Result)
  | [] => [p]
  | q :: rest => if strLt p.1 q.1 then p :: q :: rest else q :: insertByKey p rest

def sortByKey (l : List (String × Result)) : List (String × Result) :=
  l.foldr insertByKey []

/-- The `{"results":{...}}` text `json.Marshal(overviewResult)` produces on
success, map keys in sorted order. -/
def renderOverviewResult (m : List (String × Result)) : String :=
  "\x7b\"results\":\x7b" ++
    String.intercalate ","
      ((sortByKey m).map (fun p => renderJsonString p.1 ++ ":" ++ renderResult p.2)) ++
    "\x7d\x7d"

/-- `json.Marshal(overviewResult)`: walks the map in sorted key order and
re-validates every rendered `json.RawMessage` payload with the scanner,
failing on the first payload that is not well-formed JSON (Go's error names
the offending byte, e.g. `invalid character 'O' looking for beginning of
value`; the scanner's character-level detail is abstracted to a fixed
reason, which no property reads). -/
def marshalOverviewResult (m : List (String × Result)) : Except String String :=
  if (sortByKey m).all (fun p => resultDataOk p.2) then
    .ok (renderOverviewResult m)
  else
    .error "json: error calling MarshalJSON for type json.RawMessage: invalid JSON payload"

/-- `transactionOverviewHandler` (server.go): validate once, fetch cookies
once, fan out one worker per endpoint, join, marshal the composite map; a
marshal failure is wrapped as
`fmt.Errorf("failed to marshal overview results: %v", err)`. -/
def transactionOverviewHandler (args : List (String × ArgValue))
    (boot : Nat → BootstrapOutcome) (up : Upstream)
    (order : List (String × String)) : Except String String :=
  match extractRequestParams args with
  | .error e => .error e
  | .ok (chainId, txHash) =>
    match fetchBlocksecCookies boot with
    | .error e => .error e
    | .ok _ =>
      match marshalOverviewResult (buildOverviewResults up chainId txHash order) with
      | .error e => .error ("failed to marshal overview results: " ++ e)
      | .ok resultJSON => .ok resultJSON

/-- `ChainData` (server.go): one entry of the chainlist.org registry. -/
structure ChainData where
  name : String
  chain : String
  chainSlug : String
  chainId : Nat
deriving DecidableEq

/-- `strings.ToLower`, restricted to ASCII (Go lowers full Unicode; all
strings this system compares are ASCII, where `Char.toLower` coincides). -/
def goToLower (s : String) : String :=
  String.mk (s.data.map Char.toLower)

/-- `unicode.IsSpace` for the Latin-1 range (ASCII whitespace, NEL, NBSP). -/
def isGoSpace (c : Char) : Bool :=
  c == ' ' || c == '\t' || c == '\n' || c.toNat == 0x0b || c.toNat == 0x0c ||
    c == '\r' || c.toNat == 0x85 || c.toNat == 0xa0

/-- `strings.TrimSpace`. -/
def goTrimSpace (s : String) : String :=
  String.mk (((s.data.dropWhile isGoSpace).reverse.dropWhile isGoSpace).reverse)

/-- Does `s` start with `pat`? -/
def startsWithList : List Char → List Char → Bool
  | _, [] => true
  | [], _ :: _ => false
  | c :: s, d :: pat => c == d && startsWithList s pat

/-- `strings.Contains` on char lists. -/
def containsList : List Char → List Char → Bool
  | s, pat =>
    startsWithList s pat ||
      match s with
      | [] => false
      | _ :: s' => containsList s' pat

/-- `strings.Contains`. -/
def goContains (s pat : String) : Bool :=
  containsList s.data pat.data

/-- The exact-match test in `findChainByName`: the lowered name, chain or
chainSlug equals the (lowered, trimmed) search term. -/
def isExactMatch (searchTerm : String) (c : ChainData) : Bool :=
  goToLower c.name == searchTerm || goToLower c.chain == searchTerm ||
    goToLower c.chainSlug == searchTerm

/-- The substring-tier test in `findChainByName`: not exact, and the lowered
`name` (only the name) contains the search term. -/
def isSubMatch (searchTerm : String) (c : ChainData) : Bool :=
  !isExactMatch searchTerm c && goContains (goToLower c.name) searchTerm

/-- The single pass of `findChainByName` accumulating `nameMatches` and
`containsMatches` in registry order. -/
def collectMatches (chains : List ChainData) (searchTerm : String) :
    List ChainData × List ChainData :=
  chains.foldl
    (fun acc c =>
      if isExactMatch searchTerm c then (acc.1 ++ [c], acc.2)
      else if goContains (goToLower c.name) searchTerm then (acc.1, acc.2 ++ [c])
      else acc)
    ([], [])

/-- `findChainByName` (server.go): trim and lower the term, reject empty,
prefer the first exact match, else the first substring match, rendering the
chain id with `strconv.FormatUint(id, 10)`. -/
def findChainByName (chains : List ChainData) (searchTerm0 : String) :
    Except String String :=
  let searchTerm := goToLower (goTrimSpace searchTerm0)
  if searchTerm == "" then .error "search term cannot be empty"
  else
    match collectMatches chains searchTerm with
    | (c :: _, _) => .ok (toString c.chainId)
    | ([], c :: _) => .ok (toString c.chainId)
    | ([], []) => .error ("no chain found matching '" ++ searchTerm ++ "'")

/-- The two-entry registry from the spec's Chain Lookup example; unspecified
fields are Go zero values. -/
def exampleRegistry : List ChainData :=
  [{ name := "Ethereum Mainnet", chain := "ETH", chainSlug := "eth", chainId := 1 },
    { name := "Ethereum Classic", chain := "", chainSlug := "", chainId := 61 }]

/-! ### Helper lemmas -/

theorem strAppend_assoc (a b c : String) : a ++ b ++ c = a ++ (b ++ c) := by
  apply String.ext
  simp [String.data_append, List.append_assoc]

theorem strAppend_left_ne_empty (a b : String) (h : a.data ≠ []) : a ++ b ≠ "" := by
  intro hab
  have hd : a.data ++ b.data = [] := by
    have := congrArg String.data hab
    rwa [String.data_append] at this
  exact h (List.append_eq_nil.mp hd).1

theorem not_retryable_response (o : AttemptOutcome)
    (h : ¬ isRetryableFailure o = true) : ∃ b, o = .response 200 b := by
  cases o with
  | transportErr m => simp [isRetryableFailure] at h
  | readErr m => simp [isRetryableFailure] at h
  | response s b =>
    refine ⟨b, ?_⟩
    simp only [isRetryableFailure, bne_iff_ne, ne_eq, Bool.not_eq_true,
      decide_eq_false_iff_not, not_not] at h
    simp [h]

theorem runAttempts_step_fail (up : Upstream) (ep : String) (cid : Int) (tx : String)
    (attempt r : Nat) (lastErr : String)
    (h : isRetryableFailure (up ep attempt (sentBody cid tx)) = true) :
    runBlocksecAttempts up ep cid tx attempt (r + 1) lastErr =
      ((runBlocksecAttempts up ep cid tx (attempt + 1) r
          (attemptErrMsg (up ep attempt (sentBody cid tx)))).1,
        (runBlocksecAttempts up ep cid tx (attempt + 1) r
          (attemptErrMsg (up ep attempt (sentBody cid tx)))).2 + 1) := by
  cases hout : up ep attempt (sentBody cid tx) with
  | transportErr m => simp only [runBlocksecAttempts, hout]
  | readErr m => simp only [runBlocksecAttempts, hout]
  | response status body =>
    rw [hout] at h
    have hne : (status == 200) = false := by
      simp only [isRetryableFailure, bne_iff_ne, ne_eq] at h
      simpa using h
    simp [runBlocksecAttempts, hout, hne]

theorem runAttempts_step_ok (up : Upstream) (ep : String) (cid : Int) (tx : String)
    (attempt r : Nat) (lastErr b : String)
    (h : up ep attempt (sentBody cid tx) = .response 200 b) :
    runBlocksecAttempts up ep cid tx attempt (r + 1) lastErr = (.ok b, 1) := by
  simp [runBlocksecAttempts, h]

theorem runAttempts_first_success (up : Upstream) (ep : String) (cid : Int)
    (tx : String) (b : String) :
    ∀ (r j attempt : Nat) (lastErr : String), j < r →
      (∀ i, i < j → isRetryableFailure (up ep (attempt + i) (sentBody cid tx)) = true) →
      up ep (attempt + j) (sentBody cid tx) = .response 200 b →
      runBlocksecAttempts up ep cid tx attempt r lastErr = (.ok b, j + 1) := by
  intro r
  induction r with
  | zero => intro j attempt lastErr hj; omega
  | succ r ih =>
    intro j attempt lastErr hj hfail hsucc
    match j with
    | 0 =>
      rw [Nat.add_zero] at hsucc
      simp only [runBlocksecAttempts]
      rw [hsucc]
      simp
    | j + 1 =>
      have h0 : isRetryableFailure (up ep (attempt + 0) (sentBody cid tx)) = true :=
        hfail 0 (Nat.succ_pos _)
      rw [Nat.add_zero] at h0
      have hrec : runBlocksecAttempts up ep cid tx (attempt + 1) r
          (attemptErrMsg (up ep attempt (sentBody cid tx))) = (.ok b, j + 1) := by
        apply ih j (attempt + 1) _ (by omega)
        · intro i hi
          have := hfail (i + 1) (by omega)
          rwa [show attempt + (i + 1) = attempt + 1 + i by omega] at this
        · rwa [show attempt + 1 + j = attempt + (j + 1) by omega]
      simp only [runBlocksecAttempts]
      cases hout : up ep attempt (sentBody cid tx) with
      | transportErr m =>
        rw [hout] at hrec
        simp [hrec]
      | readErr m =>
        rw [hout] at hrec
        simp [hrec]
      | response status body =>
        rw [hout] at h0 hrec
        have hne : (status == 200) = false := by
          simp only [isRetryableFailure, bne_iff_ne, ne_eq] at h0
          simpa using h0
        simp only [hne, if_false, Bool.false_eq_true]
        simp [hrec]

theorem runAttempts_count_le (up : Upstream) (ep : String) (cid : Int) (tx : String) :
    ∀ (r attempt : Nat) (lastErr : String),
      (runBlocksecAttempts up ep cid tx attempt r lastErr).2 ≤ r := by
  intro r
  induction r with
  | zero => intro attempt lastErr; simp [runBlocksecAttempts]
  | succ r ih =>
    intro attempt lastErr
    simp only [runBlocksecAttempts]
    cases up ep attempt (sentBody cid tx) with
    | transportErr m => have := ih (attempt + 1) (attemptErrMsg (.transportErr m)); simp; omega
    | readErr m => have := ih (attempt + 1) (attemptErrMsg (.readErr m)); simp; omega
    | response status body =>
      by_cases h : (status == 200) = true
      · simp [h]
      · have := ih (attempt + 1) (attemptErrMsg (.response status body))
        simp only [Bool.not_eq_true] at h
        simp [h]; omega

theorem runAttempts_exhaust (up : Upstream) (ep : String) (cid : Int) (tx : String) :
    ∀ (r attempt : Nat) (lastErr : String), 0 < r →
      (∀ i, i < r → isRetryableFailure (up ep (attempt + i) (sentBody cid tx)) = true) →
      (runBlocksecAttempts up ep cid tx attempt r lastErr).1 =
        .error ("failed after 3 attempts: " ++
          attemptErrMsg (up ep (attempt + (r - 1)) (sentBody cid tx))) := by
  intro r
  induction r with
  | zero => intro attempt lastErr h; omega
  | succ r ih =>
    intro attempt lastErr _ hfail
    have h0 : isRetryableFailure (up ep (attempt + 0) (sentBody cid tx)) = true :=
      hfail 0 (Nat.succ_pos _)
    rw [Nat.add_zero] at h0
    rw [runAttempts_step_fail up ep cid tx attempt r lastErr h0]
    match r, ih with
    | 0, _ =>
      simp [runBlocksecAttempts]
    | r + 1, ih =>
      have hrec := ih (attempt + 1)
        (attemptErrMsg (up ep attempt (sentBody cid tx))) (Nat.succ_pos _)
        (by
          intro i hi
          have := hfail (i + 1) (by omega)
          rwa [show attempt + (i + 1) = attempt + 1 + i by omega] at this)
      rw [show attempt + 1 + (r + 1 - 1) = attempt + (r + 1 + 1 - 1) by omega] at hrec
      simpa using hrec

theorem runAttempts_error_ne_empty (up : Upstream) (ep : String) (cid : Int)
    (tx : String) :
    ∀ (r attempt : Nat) (lastErr e : String),
      (runBlocksecAttempts up ep cid tx attempt r lastErr).1 = .error e → e ≠ "" := by
  intro r
  induction r with
  | zero =>
    intro attempt lastErr e he
    simp only [runBlocksecAttempts] at he
    cases he
    exact strAppend_left_ne_empty _ _ (by decide)
  | succ r ih =>
    intro attempt lastErr e he
    simp only [runBlocksecAttempts] at he
    cases hout : up ep attempt (sentBody cid tx) with
    | transportErr m =>
      rw [hout] at he
      exact ih (attempt + 1) _ e (by simpa using he)
    | readErr m =>
      rw [hout] at he
      exact ih (attempt + 1) _ e (by simpa using he)
    | response status body =>
      rw [hout] at he
      by_cases h : (status == 200) = true
      · simp [h] at he
      · simp only [Bool.not_eq_true] at h
        simp only [h, if_false, Bool.false_eq_true] at he
        exact ih (attempt + 1) _ e (by simpa using he)

theorem runAttempts_congr (up up' : Upstream) (ep : String) (cid : Int) (tx : String)
    (hagree : ∀ i, up ep i (sentBody cid tx) = up' ep i (sentBody cid tx)) :
    ∀ (r attempt : Nat) (lastErr : String),
      runBlocksecAttempts up ep cid tx attempt r lastErr =
        runBlocksecAttempts up' ep cid tx attempt r lastErr := by
  intro r
  induction r with
  | zero => intro attempt lastErr; rfl
  | succ r ih =>
    intro attempt lastErr
    have h := hagree attempt
    simp only [runBlocksecAttempts, h]
    cases up' ep attempt (sentBody cid tx) with
    | transportErr m => simp [ih]
    | readErr m => simp [ih]
    | response status body =>
      by_cases hs : (status == 200) = true
      · simp [hs]
      · simp only [Bool.not_eq_true] at hs
        simp [hs, ih]

theorem fetchCookiesLoop_exhaust (boot : Nat → BootstrapOutcome) :
    ∀ (r attempt : Nat) (lastErr : String), 0 < r →
      (∀ i, i < r → isBootFailure (boot (attempt + i)) = true) →
      fetchCookiesLoop boot attempt r lastErr =
        .error ("failed to fetch cookies after 3 attempts: " ++
          bootErrMsg (boot (attempt + (r - 1)))) := by
  intro r
  induction r with
  | zero => intro attempt lastErr h; omega
  | succ r ih =>
    intro attempt lastErr _ hfail
    have h0 : isBootFailure (boot (attempt + 0)) = true := hfail 0 (Nat.succ_pos _)
    rw [Nat.add_zero] at h0
    match r, ih with
    | 0, _ =>
      cases hout : boot attempt with
      | transportErr m => simp [fetchCookiesLoop, hout]
      | response status =>
        rw [hout] at h0
        have hne : (status == 200) = false := by
          simp only [isBootFailure, bne_iff_ne, ne_eq] at h0
          simpa using h0
        simp [fetchCookiesLoop, hout, hne]
    | r + 1, ih =>
      have hrec := ih (attempt + 1) (bootErrMsg (boot attempt)) (Nat.succ_pos _)
        (by
          intro i hi
          have := hfail (i + 1) (by omega)
          rwa [show attempt + (i + 1) = attempt + 1 + i by omega] at this)
      rw [show attempt + 1 + (r + 1 - 1) = attempt + (r + 1 + 1 - 1) by omega] at hrec
      cases hout : boot attempt with
      | transportErr m =>
        rw [hout] at hrec
        simp only [fetchCookiesLoop, hout]
        exact hrec
      | response status =>
        rw [hout] at h0 hrec
        have hne : (status == 200) = false := by
          simp only [isBootFailure, bne_iff_ne, ne_eq] at h0
          simpa using h0
        simp only [fetchCookiesLoop, hout, hne, if_false, Bool.false_eq_true]
        exact hrec

theorem insertResult_append (m : List (String × Result)) (k : String) (v : Result)
    (h : k ∉ m.map Prod.fst) : insertResult m k v = m ++ [(k, v)] := by
  induction m with
  | nil => rfl
  | cons q rest ih =>
    simp only [List.map_cons, List.mem_cons] at h
    push_neg at h
    have hk : (q.1 == k) = false := by
      simp [h.1.symm]
    calc insertResult (q :: rest) k v
        = q :: insertResult rest k v := by
          simp only [insertResult, hk]
          simp [Bool.false_eq_true]
      _ = q :: (rest ++ [(k, v)]) := by rw [ih h.2]
      _ = (q :: rest) ++ [(k, v)] := rfl

theorem foldl_insert_eq_map (up : Upstream) (cid : Int) (tx : String) :
    ∀ (order : List (String × String)) (acc : List (String × Result)),
      (order.map Prod.fst).Nodup →
      (∀ k, k ∈ acc.map Prod.fst → k ∉ order.map Prod.fst) →
      order.foldl (fun m e => insertResult m e.1 (runWorker up cid tx e.1 e.2)) acc =
        acc ++ order.map (fun e => (e.1, runWorker up cid tx e.1 e.2)) := by
  intro order
  induction order with
  | nil => intro acc _ _; simp
  | cons e rest ih =>
    intro acc hnd hdisj
    simp only [List.map_cons, List.nodup_cons] at hnd
    have hnot : e.1 ∉ acc.map Prod.fst := by
      intro hmem
      exact hdisj e.1 hmem (by simp)
    simp only [List.foldl_cons]
    rw [insertResult_append acc e.1 _ hnot]
    rw [ih (acc ++ [(e.1, runWorker up cid tx e.1 e.2)]) hnd.2]
    · simp
    · intro k hk
      simp only [List.map_append, List.mem_append] at hk
      cases hk with
      | inl hk =>
        intro hmem
        exact hdisj k hk (by simp [hmem])
      | inr hk =>
        simp at hk
        rw [hk]
        exact hnd.1

theorem buildOverviewResults_eq_map (up : Upstream) (cid : Int) (tx : String)
    (order : List (String × String)) (hnd : (order.map Prod.fst).Nodup) :
    buildOverviewResults up cid tx order =
      order.map (fun e => (e.1, runWorker up cid tx e.1 e.2)) := by
  have := foldl_insert_eq_map up cid tx order [] hnd (by simp)
  simpa [buildOverviewResults] using this

theorem lookupResult_map_of_mem (g : String × String → Result) :
    ∀ (l : List (String × String)) (p : String × String),
      (l.map Prod.fst).Nodup → p ∈ l →
      lookupResult (l.map (fun e => (e.1, g e))) p.1 = some (g p) := by
  intro l
  induction l with
  | nil => intro p _ hp; simp at hp
  | cons q rest ih =>
    intro p hnd hp
    simp only [List.map_cons, List.nodup_cons] at hnd
    simp only [List.mem_cons] at hp
    by_cases hq : q.1 == p.1
    · have hqp : p = q := by
        cases hp with
        | inl h => exact h
        | inr h =>
          exfalso
          apply hnd.1
          rw [show q.1 = p.1 from by simpa using hq]
          exact List.mem_map.mpr ⟨p, h, rfl⟩
      subst hqp
      simp [lookupResult, hq]
    · have hpq : p ∈ rest := by
        cases hp with
        | inl h =>
          subst h
          simp at hq
        | inr h => exact h
      simp only [List.map_cons, lookupResult, hq]
      simp only [Bool.false_eq_true, if_false]
      exact ih p hnd.2 hpq

theorem mem_insertByKey (x p : String × Result) :
    ∀ (l : List (String × Result)), x ∈ insertByKey p l → x = p ∨ x ∈ l := by
  intro l
  induction l with
  | nil =>
    intro h
    simp only [insertByKey, List.mem_singleton] at h
    exact Or.inl h
  | cons q rest ih =>
    intro h
    simp only [insertByKey] at h
    by_cases hc : strLt p.1 q.1
    · rw [if_pos hc] at h
      rcases List.mem_cons.mp h with h | h
      · exact Or.inl h
      · exact Or.inr h
    · rw [if_neg hc] at h
      rcases List.mem_cons.mp h with h | h
      · exact Or.inr (List.mem_cons.mpr (Or.inl h))
      · rcases ih h with h | h
        · exact Or.inl h
        · exact Or.inr (List.mem_cons.mpr (Or.inr h))

theorem mem_sortByKey (x : String × Result) :
    ∀ (l : List (String × Result)), x ∈ sortByKey l → x ∈ l := by
  intro l
  induction l with
  | nil => intro h; simp [sortByKey] at h
  | cons q rest ih =>
    intro h
    simp only [sortByKey, List.foldr_cons] at h
    rcases mem_insertByKey x q _ h with h | h
    · simp [h]
    · exact List.mem_cons.mpr (Or.inr (ih h))

theorem runWorker_name (up : Upstream) (cid : Int) (tx : String) (n ep : String) :
    (runWorker up cid tx n ep).name = n := by
  cases h : callBlocksecAPI up ep cid tx with
  | error e => simp [runWorker, h]
  | ok b => simp [runWorker, h]

theorem endpoints_names :
    endpoints.map Prod.fst =
      ["trace", "profile", "address_label", "balance_change", "state_change"] := rfl

theorem endpoints_names_nodup : (endpoints.map Prod.fst).Nodup := by decide

theorem collectMatches_filter (searchTerm : String) :
    ∀ (chains : List ChainData) (nm cm : List ChainData),
      chains.foldl
        (fun acc c =>
          if isExactMatch searchTerm c then (acc.1 ++ [c], acc.2)
          else if goContains (goToLower c.name) searchTerm then (acc.1, acc.2 ++ [c])
          else acc)
        (nm, cm) =
      (nm ++ chains.filter (isExactMatch searchTerm),
        cm ++ chains.filter (isSubMatch searchTerm)) := by
  intro chains
  induction chains with
  | nil => intro nm cm; simp
  | cons c rest ih =>
    intro nm cm
    simp only [List.foldl_cons]
    by_cases hex : isExactMatch searchTerm c
    · have hsub : isSubMatch searchTerm c = false := by
        simp [isSubMatch, hex]
      rw [if_pos hex]
      rw [ih (nm ++ [c]) cm]
      simp [List.filter_cons, hex, hsub]
    · rw [if_neg hex]
      by_cases hco : goContains (goToLower c.name) searchTerm
      · have hsub : isSubMatch searchTerm c = true := by
          simp only [isSubMatch, hco, Bool.and_true]
          simp [hex]
        rw [if_pos hco]
        rw [ih nm (cm ++ [c])]
        simp only [List.filter_cons, hsub]
        have hexf : isExactMatch searchTerm c = false := by simp [hex]
        simp [hexf]
      · have hsub : isSubMatch searchTerm c = false := by
          simp [isSubMatch, hco]
        rw [if_neg hco]
        rw [ih nm cm]
        have hexf : isExactMatch searchTerm c = false := by simp [hex]
        simp [List.filter_cons, hexf, hsub]

theorem collectMatches_eq (chains : List ChainData) (searchTerm : String) :
    collectMatches chains searchTerm =
      (chains.filter (isExactMatch searchTerm), chains.filter (isSubMatch searchTerm)) := by
  have := collectMatches_filter searchTerm chains [] []
  simpa [collectMatches] using this

/-! ### Claim theorems -/

/-- C2 (counterexample): an empty `transactionHash` is NOT rejected by
validation — `extractRequestParams` accepts `chainId = "1"`,
`transactionHash = ""`, and the single-operation call proceeds through
session bootstrap and endpoint request to success instead of failing with a
validation error before any network activity. -/
theorem emptyTxHash_not_validated :
    extractRequestParams [("chainId", .str "1"), ("transactionHash", .str "")] =
        .ok (1, "") ∧
      handleBlocksecRequest [("chainId", .str "1"), ("transactionHash", .str "")]
        (fun _ => .response 200) (fun _ _ _ => .response 200 "PAYLOAD") "trace" =
        .ok "PAYLOAD" :=
  ⟨rfl, rfl⟩

/-- C2 (amended): a call whose `chainId` argument does not parse as an
integer fails with the validation error before any network activity — the
single-operation and aggregate handlers return the same `ValidationError`
for every bootstrap oracle, upstream oracle and schedule, so no session
bootstrap and no endpoint request can influence the outcome.  An empty
`transactionHash` string, by contrast, passes validation. -/
theorem validation_failfast (args : List (String × ArgValue)) (s e : String)
    (hchain : asStringArg (lookupArg args "chainId") = some s)
    (hatoi : goAtoi s = .error e) :
    (∀ boot up endpoint, handleBlocksecRequest args boot up endpoint =
        .error ("invalid chainId format: " ++ e)) ∧
      (∀ boot up order, transactionOverviewHandler args boot up order =
        .error ("invalid chainId format: " ++ e)) ∧
      (∀ args' s' n, asStringArg (lookupArg args' "chainId") = some s' →
        goAtoi s' = .ok n →
        asStringArg (lookupArg args' "transactionHash") = some "" →
        extractRequestParams args' = .ok (n, "")) := by
  have hex : extractRequestParams args = .error ("invalid chainId format: " ++ e) := by
    simp [extractRequestParams, hchain, hatoi]
  refine ⟨?_, ?_, ?_⟩
  · intro boot up endpoint
    simp [handleBlocksecRequest, hex]
  · intro boot up order
    simp [transactionOverviewHandler, hex]
  · intro args' s' n h1 h2 h3
    simp [extractRequestParams, h1, h2, h3]

/-- C3: if the session bootstrap fails on all 4 attempts of its retry
budget, the aggregate call fails as a whole with the bootstrap error
(carrying the last attempt's cause), and the result is the same for every
upstream oracle and every schedule — no endpoint sub-call is attempted and
no composite result is constructed. -/
theorem overview_bootstrap_failfast (args : List (String × ArgValue)) (cid : Int)
    (tx : String) (boot : Nat → BootstrapOutcome)
    (hargs : extractRequestParams args = .ok (cid, tx))
    (hboot : ∀ i, i < 4 → isBootFailure (boot i) = true) :
    ∀ up order, transactionOverviewHandler args boot up order =
      .error ("failed to fetch cookies after 3 attempts: " ++ bootErrMsg (boot 3)) := by
  intro up order
  have hfc : fetchBlocksecCookies boot =
      .error ("failed to fetch cookies after 3 attempts: " ++ bootErrMsg (boot 3)) := by
    have := fetchCookiesLoop_exhaust boot 4 0 "" (by norm_num)
      (fun i hi => by simpa using hboot i hi)
    simpa [fetchBlocksecCookies] using this
  simp [transactionOverviewHandler, hargs, hfc]

/-- C4: the request executor makes at most 4 attempts in total; it retries
exactly on transport error, body-read error or non-200 status, and the
first attempt returning status 200 stops the loop with that attempt's body
as the successful result (using `j + 1` attempts when attempts `0..j-1`
fail and attempt `j` returns 200). -/
theorem callBlocksecAPI_retry_budget (up : Upstream) (ep : String) (cid : Int)
    (tx : String) (j : Nat) (b : String) (hj : j < 4)
    (hfail : ∀ i, i < j → isRetryableFailure (up ep i (sentBody cid tx)) = true)
    (hsucc : up ep j (sentBody cid tx) = .response 200 b) :
    callBlocksecAPI up ep cid tx = .ok b ∧
      callBlocksecAttempts up ep cid tx = j + 1 ∧
      ∀ up' ep' cid' tx', callBlocksecAttempts up' ep' cid' tx' ≤ 4 := by
  have hrun : runBlocksecAttempts up ep cid tx 0 4 "" = (.ok b, j + 1) := by
    apply runAttempts_first_success up ep cid tx b 4 j 0 "" hj
    · intro i hi
      simpa using hfail i hi
    · simpa using hsucc
  refine ⟨?_, ?_, ?_⟩
  · simp [callBlocksecAPI, callBlocksecAPIRun, hrun]
  · simp [callBlocksecAttempts, callBlocksecAPIRun, hrun]
  · intro up' ep' cid' tx'
    exact runAttempts_count_le up' ep' cid' tx' 4 0 ""

/-- C5: when the executor exhausts its retry budget (all 4 attempts fail),
it returns a failure whose message carries the most recent underlying cause
(the cause of attempt 3, the last one); and when that last attempt ended
with a non-200 status response, the message contains the last observed
status code and the response body as substrings. -/
theorem callBlocksecAPI_exhausted (up : Upstream) (ep : String) (cid : Int)
    (tx : String)
    (hfail : ∀ i, i < 4 → isRetryableFailure (up ep i (sentBody cid tx)) = true) :
    callBlocksecAPI up ep cid tx =
        .error ("failed after 3 attempts: " ++ attemptErrMsg (up ep 3 (sentBody cid tx))) ∧
      ∀ s b, up ep 3 (sentBody cid tx) = .response s b →
        ∃ pre mid, "failed after 3 attempts: " ++ attemptErrMsg (up ep 3 (sentBody cid tx)) =
          pre ++ toString s ++ mid ++ b := by
  constructor
  · have := runAttempts_exhaust up ep cid tx 4 0 "" (by norm_num)
      (fun i hi => by simpa using hfail i hi)
    simpa [callBlocksecAPI, callBlocksecAPIRun] using this
  · intro s b hsb
    rw [hsb]
    refine ⟨"failed after 3 attempts: " ++ "BlockSec API returned non-200 status code: ",
      " - ", ?_⟩
    simp only [attemptErrMsg]
    simp only [strAppend_assoc]

/-- C6: on every attempt the executor serialises
`BlocksecTraceRequest{ChainID: chainId, TxnHash: txHash, Blocked: false}`
— a JSON object whose field list is exactly
`chainID` (the integer chain id), `txnHash` (the hash string) and
`blocked` (always `false`), in that spelling — and the executor's behaviour
depends on the upstream only through its responses to that body (two
upstreams agreeing on that body at every attempt index are
indistinguishable). -/
theorem requestBody_shape (cid : Int) (tx : String) (up up' : Upstream) (ep : String)
    (hagree : ∀ i, up ep i (sentBody cid tx) = up' ep i (sentBody cid tx)) :
    blocksecTraceRequestFields (apiRequestBody cid tx) =
        [("chainID", .jnum cid), ("txnHash", .jstr tx), ("blocked", .jbool false)] ∧
      (blocksecTraceRequestFields (apiRequestBody cid tx)).map Prod.fst =
        ["chainID", "txnHash", "blocked"] ∧
      (apiRequestBody cid tx).blocked = false ∧
      callBlocksecAPI up ep cid tx = callBlocksecAPI up' ep cid tx := by
  refine ⟨rfl, rfl, rfl, ?_⟩
  simp [callBlocksecAPI, callBlocksecAPIRun,
    runAttempts_congr up up' ep cid tx hagree 4 0 ""]

/-- C9: on success, each single-operation facade (trace, profile,
address-label, balance-change, state-change) returns the upstream response
body unchanged: if its endpoint's API call yields body `bᵢ`, the handler's
text result is exactly `bᵢ`. -/
theorem singleOp_passthrough (args : List (String × ArgValue)) (cid : Int)
    (tx : String) (boot : Nat → BootstrapOutcome) (up : Upstream)
    (b1 b2 b3 b4 b5 : String)
    (hargs : extractRequestParams args = .ok (cid, tx))
    (hboot : fetchBlocksecCookies boot = .ok ())
    (h1 : callBlocksecAPI up "trace" cid tx = .ok b1)
    (h2 : callBlocksecAPI up "profile" cid tx = .ok b2)
    (h3 : callBlocksecAPI up "address-label" cid tx = .ok b3)
    (h4 : callBlocksecAPI up "balance-change" cid tx = .ok b4)
    (h5 : callBlocksecAPI up "state-change" cid tx = .ok b5) :
    traceHandler args boot up = .ok b1 ∧
      profileHandler args boot up = .ok b2 ∧
      addressLabelHandler args boot up = .ok b3 ∧
      balanceChangeHandler args boot up = .ok b4 ∧
      stateChangeHandler args boot up = .ok b5 := by
  refine ⟨?_, ?_, ?_, ?_, ?_⟩ <;>
    simp [traceHandler, profileHandler, addressLabelHandler, balanceChangeHandler,
      stateChangeHandler, handleBlocksecRequest, formatJSONResponse, hargs, hboot,
      h1, h2, h3, h4, h5]

/-- C1 (counterexample): in an aggregate call in which the `trace` endpoint
fails (status 500) and the other four succeed with the 200 body `"OK"` —
which is not well-formed JSON — the call as a whole does NOT return
success: `json.Marshal(overviewResult)` re-validates the stored
`json.RawMessage` payloads and fails, and the handler returns the wrapped
marshal error instead of the composite. -/
theorem overview_invalid_payload_fails :
    callBlocksecAPI
        (fun ep _ _ => if ep == "trace" then .response 500 "oops" else .response 200 "OK")
        "trace" 1 "0xabc" =
      .error "failed after 3 attempts: BlockSec API returned non-200 status code: 500 - oops" ∧
      callBlocksecAPI
        (fun ep _ _ => if ep == "trace" then .response 500 "oops" else .response 200 "OK")
        "profile" 1 "0xabc" = .ok "OK" ∧
      transactionOverviewHandler [("chainId", .str "1"), ("transactionHash", .str "0xabc")]
        (fun _ => .response 200)
        (fun ep _ _ => if ep == "trace" then .response 500 "oops" else .response 200 "OK")
        endpoints =
      .error ("failed to marshal overview results: " ++
        "json: error calling MarshalJSON for type json.RawMessage: invalid JSON payload") :=
  ⟨rfl, rfl, rfl⟩

/-- C1 (amended): for every aggregate call that passes validation and
bootstrap, the composite result has one entry per endpoint regardless of
which workers failed — a failed endpoint's entry has `success = false`, no
data and a non-empty error reason; a succeeded endpoint's entry has
`success = true`, its raw payload as data and an empty error — and,
provided every stored success payload is well-formed JSON (or empty, which
`omitempty` drops before marshalling), the call as a whole returns success:
endpoint-level failures alone never cause the aggregate call to fail. -/
theorem overview_partial_failure (args : List (String × ArgValue)) (cid : Int)
    (tx : String) (boot : Nat → BootstrapOutcome) (up : Upstream)
    (order : List (String × String))
    (hargs : extractRequestParams args = .ok (cid, tx))
    (hboot : fetchBlocksecCookies boot = .ok ())
    (horder : order.Perm endpoints)
    (hvalid : ∀ p ∈ endpoints, resultDataOk (runWorker up cid tx p.1 p.2) = true) :
    (∃ s, transactionOverviewHandler args boot up order = .ok s) ∧
      ∀ p ∈ endpoints, ∃ r,
        lookupResult (buildOverviewResults up cid tx order) p.1 = some r ∧
        r.name = p.1 ∧
        ((∃ e, callBlocksecAPI up p.2 cid tx = .error e ∧
            r.success = false ∧ r.error = e ∧ r.error ≠ "" ∧ r.data = none) ∨
          (∃ b, callBlocksecAPI up p.2 cid tx = .ok b ∧
            r.success = true ∧ r.data = some b ∧ r.error = "")) := by
  have hnd : (order.map Prod.fst).Nodup :=
    (horder.map Prod.fst).nodup_iff.mpr endpoints_names_nodup
  constructor
  · have hall : ((sortByKey (buildOverviewResults up cid tx order)).all
        (fun p => resultDataOk p.2)) = true := by
      apply List.all_eq_true.mpr
      intro q hq
      have hq' : q ∈ buildOverviewResults up cid tx order := mem_sortByKey q _ hq
      rw [buildOverviewResults_eq_map up cid tx order hnd] at hq'
      obtain ⟨e, he, rfl⟩ := List.mem_map.mp hq'
      exact hvalid e (horder.mem_iff.mp he)
    exact ⟨renderOverviewResult (buildOverviewResults up cid tx order),
      by simp [transactionOverviewHandler, hargs, hboot, marshalOverviewResult, hall]⟩
  · intro p hp
    have hmem : p ∈ order := horder.mem_iff.mpr hp
    have hlook : lookupResult (buildOverviewResults up cid tx order) p.1 =
        some (runWorker up cid tx p.1 p.2) := by
      rw [buildOverviewResults_eq_map up cid tx order hnd]
      exact lookupResult_map_of_mem (fun e => runWorker up cid tx e.1 e.2) order p hnd hmem
    refine ⟨runWorker up cid tx p.1 p.2, hlook, runWorker_name up cid tx p.1 p.2, ?_⟩
    cases hc : callBlocksecAPI up p.2 cid tx with
    | error e =>
      left
      refine ⟨e, rfl, by simp [runWorker, hc], by simp [runWorker, hc], ?_, by simp [runWorker, hc]⟩
      have hne : e ≠ "" := by
        apply runAttempts_error_ne_empty up p.2 cid tx 4 0 "" e
        simpa [callBlocksecAPI, callBlocksecAPIRun] using hc
      simpa [runWorker, hc] using hne
    | ok b =>
      right
      exact ⟨b, rfl, by simp [runWorker, hc], by simp [runWorker, hc], by simp [runWorker, hc]⟩

/-- C8: for every aggregate call reaching the fan-out stage, the key set of
the assembled composite map is exactly the 5 fixed endpoint names, no more
and no fewer, for every completion order of the 5 workers and independently
of which workers succeeded or failed (the upstream oracle is universally
quantified). -/
theorem overview_keyset (up : Upstream) (cid : Int) (tx : String)
    (order : List (String × String)) (horder : order.Perm endpoints) :
    ((buildOverviewResults up cid tx order).map Prod.fst).Perm
      ["trace", "profile", "address_label", "balance_change", "state_change"] := by
  have hnd : (order.map Prod.fst).Nodup :=
    (horder.map Prod.fst).nodup_iff.mpr endpoints_names_nodup
  rw [buildOverviewResults_eq_map up cid tx order hnd]
  have hmap : (order.map (fun e => (e.1, runWorker up cid tx e.1 e.2))).map Prod.fst =
      order.map Prod.fst := by
    simp [List.map_map, Function.comp]
  rw [hmap]
  have := horder.map Prod.fst
  simpa [endpoints_names] using this

/-- C10: the composite map's keys are the underscore-spelled names
`trace`, `profile`, `address_label`, `balance_change`, `state_change`,
while the upstream path segments to which the workers post are the
hyphenated `trace`, `profile`, `address-label`, `balance-change`,
`state-change`; and every stored `Result`'s `name` field equals the map key
it is stored under. -/
theorem overview_key_naming (up : Upstream) (cid : Int) (tx : String)
    (order : List (String × String)) (horder : order.Perm endpoints) :
    endpoints.map Prod.fst =
        ["trace", "profile", "address_label", "balance_change", "state_change"] ∧
      endpoints.map Prod.snd =
        ["trace", "profile", "address-label", "balance-change", "state-change"] ∧
      ∀ p ∈ buildOverviewResults up cid tx order, (p.2).name = p.1 := by
  refine ⟨rfl, rfl, ?_⟩
  have hnd : (order.map Prod.fst).Nodup :=
    (horder.map Prod.fst).nodup_iff.mpr endpoints_names_nodup
  rw [buildOverviewResults_eq_map up cid tx order hnd]
  intro p hp
  obtain ⟨e, _, rfl⟩ := List.mem_map.mp hp
  exact runWorker_name up cid tx e.1 e.2

/-- C7: chain lookup is two-tiered on the lowered, trimmed search term: the
first entry (in registry order) with an exact match on name, chain or
chainSlug wins; only when the exact tier is empty does the first entry
whose lowered name contains the term win.  On the spec's example registry
with term `"ethereum"`, the exact tier is empty, the substring tier holds
both entries, and `Ethereum Mainnet`'s id `"1"` is returned. -/
theorem findChainByName_two_tier (chains : List ChainData) (term t : String)
    (c : ChainData) (ht : goToLower (goTrimSpace term) = t)
    (hne : (t == "") = false) :
    ((chains.filter (isExactMatch t)).head? = some c →
        findChainByName chains term = .ok (toString c.chainId)) ∧
      (chains.filter (isExactMatch t) = [] →
        (chains.filter (isSubMatch t)).head? = some c →
        findChainByName chains term = .ok (toString c.chainId)) ∧
      findChainByName exampleRegistry "ethereum" = .ok "1" ∧
      exampleRegistry.filter (isExactMatch "ethereum") = [] ∧
      exampleRegistry.filter (isSubMatch "ethereum") = exampleRegistry := by
  refine ⟨?_, ?_, rfl, rfl, rfl⟩
  · intro hh
    cases hfe : chains.filter (isExactMatch t) with
    | nil =>
      rw [hfe] at hh
      simp at hh
    | cons c0 rest =>
      rw [hfe] at hh
      simp only [List.head?_cons, Option.some.injEq] at hh
      subst hh
      simp [findChainByName, ht, hne, collectMatches_eq, hfe]
  · intro hfe0 hh
    cases hfs : chains.filter (isSubMatch t) with
    | nil =>
      rw [hfs] at hh
      simp at hh
    | cons c0 rest =>
      rw [hfs] at hh
      simp only [List.head?_cons, Option.some.injEq] at hh
      subst hh
      simp [findChainByName, ht, hne, collectMatches_eq, hfe0, hfs]

/-! ### Witnesses -/

/-- Witness for the amended C1 at a concrete aggregate call in which
`trace` fails upstream and the other four endpoints succeed with the
well-formed JSON payload `"123"`. -/
theorem overview_partial_failure_witness :
    ∃ s, transactionOverviewHandler
      [("chainId", .str "1"), ("transactionHash", .str "0xabc")]
      (fun _ => .response 200)
      (fun ep _ _ => if ep == "trace" then .response 500 "oops" else .response 200 "123")
      endpoints = .ok s :=
  (overview_partial_failure
    [("chainId", .str "1"), ("transactionHash", .str "0xabc")] 1 "0xabc"
    (fun _ => .response 200)
    (fun ep _ _ => if ep == "trace" then .response 500 "oops" else .response 200 "123")
    endpoints rfl rfl (List.Perm.refl _) (by decide)).1

/-- Witness for the amended C2 at `chainId = "abc"`. -/
theorem validation_failfast_witness :
    handleBlocksecRequest [("chainId", .str "abc"), ("transactionHash", .str "0x1")]
        (fun _ => .response 200) (fun _ _ _ => .response 200 "X") "trace" =
      .error ("invalid chainId format: " ++
        "strconv.Atoi: parsing \"abc\": invalid syntax") :=
  (validation_failfast [("chainId", .str "abc"), ("transactionHash", .str "0x1")]
    "abc" "strconv.Atoi: parsing \"abc\": invalid syntax" rfl rfl).1
    (fun _ => .response 200) (fun _ _ _ => .response 200 "X") "trace"

/-- Witness for C3 with a bootstrap oracle answering 503 on every attempt. -/
theorem overview_bootstrap_failfast_witness :
    transactionOverviewHandler [("chainId", .str "1"), ("transactionHash", .str "0xabc")]
        (fun _ => .response 503) (fun _ _ _ => .response 200 "OK") endpoints =
      .error ("failed to fetch cookies after 3 attempts: " ++
        bootErrMsg (.response 503)) :=
  overview_bootstrap_failfast
    [("chainId", .str "1"), ("transactionHash", .str "0xabc")] 1 "0xabc"
    (fun _ => .response 503) rfl (fun _ _ => rfl)
    (fun _ _ _ => .response 200 "OK") endpoints

/-- Witness for C4: an upstream failing on attempts 0 and 1 and succeeding
on attempt 2 yields success in exactly 3 attempts. -/
theorem callBlocksecAPI_retry_budget_witness :
    callBlocksecAPI
        (fun _ i _ => if i < 2 then .transportErr "boom" else .response 200 "DATA")
        "trace" 1 "0xabc" = .ok "DATA" ∧
      callBlocksecAttempts
        (fun _ i _ => if i < 2 then .transportErr "boom" else .response 200 "DATA")
        "trace" 1 "0xabc" = 3 :=
  have h := callBlocksecAPI_retry_budget
    (fun _ i _ => if i < 2 then .transportErr "boom" else .response 200 "DATA")
    "trace" 1 "0xabc" 2 "DATA" (by decide) (by decide) rfl
  ⟨h.1, h.2.1⟩

/-- Witness for C5 with every attempt answered `500 - bad`. -/
theorem callBlocksecAPI_exhausted_witness :
    callBlocksecAPI (fun _ _ _ => .response 500 "bad") "trace" 1 "0xabc" =
      .error ("failed after 3 attempts: " ++ attemptErrMsg (.response 500 "bad")) :=
  (callBlocksecAPI_exhausted (fun _ _ _ => .response 500 "bad") "trace" 1 "0xabc"
    (fun _ _ => rfl)).1

/-- Witness for C6 at chain id 1, hash `"0xabc"`. -/
theorem requestBody_shape_witness :
    blocksecTraceRequestFields (apiRequestBody 1 "0xabc") =
        [("chainID", .jnum 1), ("txnHash", .jstr "0xabc"), ("blocked", .jbool false)] ∧
      callBlocksecAPI (fun _ _ _ => .response 200 "X") "trace" 1 "0xabc" =
        callBlocksecAPI (fun _ _ _ => .response 200 "X") "trace" 1 "0xabc" :=
  have h := requestBody_shape 1 "0xabc" (fun _ _ _ => .response 200 "X")
    (fun _ _ _ => .response 200 "X") "trace" (fun _ => rfl)
  ⟨h.1, h.2.2.2⟩

/-- Witness for C7 on the spec's example registry. -/
theorem findChainByName_two_tier_witness :
    findChainByName exampleRegistry "ethereum" = .ok "1" :=
  (findChainByName_two_tier exampleRegistry "ethereum" "ethereum"
    { name := "Ethereum Mainnet", chain := "ETH", chainSlug := "eth", chainId := 1 }
    rfl rfl).2.2.1

/-- Witness for C8 with the workers completing in reverse registration
order. -/
theorem overview_keyset_witness :
    ((buildOverviewResults (fun _ _ _ => .response 200 "OK") 1 "0xabc"
        endpoints.reverse).map Prod.fst).Perm
      ["trace", "profile", "address_label", "balance_change", "state_change"] :=
  overview_keyset (fun _ _ _ => .response 200 "OK") 1 "0xabc" endpoints.reverse
    (List.reverse_perm endpoints)

/-- Witness for C9 with a uniformly succeeding upstream. -/
theorem singleOp_passthrough_witness :
    traceHandler [("chainId", .str "1"), ("transactionHash", .str "0xabc")]
      (fun _ => .response 200) (fun _ _ _ => .response 200 "BODY") = .ok "BODY" :=
  (singleOp_passthrough [("chainId", .str "1"), ("transactionHash", .str "0xabc")]
    1 "0xabc" (fun _ => .response 200) (fun _ _ _ => .response 200 "BODY")
    "BODY" "BODY" "BODY" "BODY" "BODY" rfl rfl rfl rfl rfl rfl rfl).1

/-- Witness for C10 with the workers completing in reverse registration
order. -/
theorem overview_key_naming_witness :
    endpoints.map Prod.snd =
      ["trace", "profile", "address-label", "balance-change", "state-change"] :=
  (overview_key_naming (fun _ _ _ => .response 200 "OK") 1 "0xabc"
    endpoints.reverse (List.reverse_perm endpoints)).2.1

end PhalconMCP
